import Mathlib

/-!
Verification of the order-book heatmap program `pruebaStream.py`.

The program keeps an append-only journal of `(price, quantity, side)` rows,
bootstrapped from a REST snapshot (`cargar_snapshot`), grown by WebSocket
delta messages (`aplicar_update` / `on_message`), and periodically aggregated
into a binned, windowed heatmap grid (`actualizar_grafica`).

Prices and quantities are modelled as rationals (the feed delivers plain
decimal strings, which are exact rationals; no claim depends on binary
floating-point rounding).  Pandas `max`/`min` returning NaN on an empty
side is modelled as `Option`.  The `ZeroDivisionError` that the occupancy
computation raises when the price window is empty is modelled as an explicit
`zeroDivisionError` result.  The `log1p` colour transform of the heatmap is
display-only (the summary and every claim use the pre-log sums), so it is
not part of the grid model.
-/

namespace OrderBook

/-- A side of the book: the `side` column holds the string `bid` or `ask`. -/
inductive Side where
  | bid : Side
  | ask : Side
deriving DecidableEq, Repr

/-- One journal row, as stored in `st.session_state["orderbook"]`:
columns `price`, `quantity`, `side`. -/
structure Row where
  price : ℚ
  quantity : ℚ
  side : Side
deriving DecidableEq, Repr

/-! ### Numeric-string parsing

`aplicar_update` calls Python `float(price_str)` / `float(qty_str)` on every
pair; `cargar_snapshot` parses with `dtype=float`.  The feed's numeric
strings are plain (optionally signed) decimal digit strings with an optional
fractional part; `parseFloat` models Python `float` on exactly that domain,
returning `none` where `float` raises `ValueError` (e.g. on `"abc"`). -/

/-- Is every character a decimal digit? -/
def allDigits (cs : List Char) : Bool := cs.all (·.isDigit)

/-- Natural number denoted by a list of decimal digits (most significant first). -/
def natOfDigits (cs : List Char) : ℕ :=
  cs.foldl (fun n c => n * 10 + (c.toNat - 48)) 0

/-- Split a character list at the first dot: integer part and (optionally)
everything after the dot. -/
def splitDot : List Char → (List Char × Option (List Char))
  | [] => ([], none)
  | c :: rest =>
    if c = '.' then ([], some rest)
    else
      let (w, f) := splitDot rest
      (c :: w, f)

/-- Unsigned decimal literal: digits, optionally with one dot and a
fractional digit run; at least one digit overall. -/
def parseUnsigned (cs : List Char) : Option ℚ :=
  match splitDot cs with
  | (w, none) =>
    if w ≠ [] ∧ allDigits w = true then some ((natOfDigits w : ℕ) : ℚ) else none
  | (w, some f) =>
    if (w ≠ [] ∨ f ≠ []) ∧ allDigits w = true ∧ allDigits f = true then
      some (((natOfDigits w : ℕ) : ℚ) + ((natOfDigits f : ℕ) : ℚ) / (10 : ℚ) ^ f.length)
    else none

/-- Model of Python `float(s)` on the feed's plain decimal strings:
`none` models a raised `ValueError`. -/
def parseFloat (s : String) : Option ℚ :=
  match s.toList with
  | '-' :: rest => (parseUnsigned rest).map Neg.neg
  | '+' :: rest => parseUnsigned rest
  | cs => parseUnsigned cs

/-! ### Delta ingestion (`aplicar_update`, `on_message`) -/

/-- A depth delta message after `json.loads`: key `"b"` is the bid-update
list, key `"a"` the ask-update list, each a list of
`[priceString, quantityString]` pairs (`data.get` defaults a missing key
to the empty list). -/
structure DeltaMsg where
  b : List (String × String)
  a : List (String × String)
deriving DecidableEq, Repr

/-- One `{"price": float(price_str), "quantity": float(qty_str), "side": s}`
dict of `aplicar_update`; `none` models the `ValueError` from `float`. -/
def parsePair (s : Side) (pr : String × String) : Option Row :=
  match parseFloat pr.1, parseFloat pr.2 with
  | some p, some q => some ⟨p, q, s⟩
  | _, _ => none

/-- Parse a whole update list; any single failure aborts the list
(the exception propagates out of the `for` loop before any append). -/
def parseList {α β : Type} (f : α → Option β) : List α → Option (List β)
  | [] => some []
  | x :: xs =>
    match f x, parseList f xs with
    | some y, some ys => some (y :: ys)
    | _, _ => none

/-- The `updates` list built by `aplicar_update`: bids first, then asks;
`none` when any `float` call raises, in which case nothing is appended. -/
def normalize (m : DeltaMsg) : Option (List Row) :=
  match parseList (parsePair .bid) m.b, parseList (parsePair .ask) m.a with
  | some bs, some ks => some (bs ++ ks)
  | _, _ => none

/-- Effect of one message on the journal: `on_message` parses and appends
under `depth_lock`; the WebSocket callback boundary catches any exception,
so a failing message leaves the store unchanged and the loop continues. -/
def on_message (store : List Row) (m : DeltaMsg) : List Row :=
  match normalize m with
  | some rows => store ++ rows
  | none => store

/-- The ingestion loop: messages applied strictly in arrival order. -/
def processAll (store : List Row) (ms : List DeltaMsg) : List Row :=
  ms.foldl on_message store

/-! ### Snapshot bootstrap (`cargar_snapshot`) -/

/-- A decoded snapshot response body; either the `bids` or the `asks` key
may be absent. -/
structure SnapshotResp where
  bids : Option (List (String × String))
  asks : Option (List (String × String))

/-- The synthetic placeholder book built in the `except` branch:
`precios = [28000, 28100, 28200, 28300]`, prices `precios*2`,
quantities `[10,20,15,5,8,12,7,9]`, sides `["bid"]*4 + ["ask"]*4`. -/
def fallbackBook : List Row :=
  [⟨28000, 10, .bid⟩, ⟨28100, 20, .bid⟩, ⟨28200, 15, .bid⟩, ⟨28300, 5, .bid⟩,
   ⟨28000, 8, .ask⟩, ⟨28100, 12, .ask⟩, ⟨28200, 7, .ask⟩, ⟨28300, 9, .ask⟩]

/-- `cargar_snapshot`: `none` input models a network/JSON failure of the
`requests.get` call.  A response missing `bids` or `asks` raises
`ValueError`, a malformed numeric string fails the `dtype=float` parse;
every failure is caught and answered with `fallbackBook`.  On success the
result is the bid rows followed by the ask rows (`pd.concat([bids, asks])`). -/
def cargar_snapshot : Option SnapshotResp → List Row
  | none => fallbackBook
  | some resp =>
    match resp.bids, resp.asks with
    | some bs, some ks =>
      match parseList (parsePair .bid) bs, parseList (parsePair .ask) ks with
      | some b, some a => b ++ a
      | _, _ => fallbackBook
    | _, _ => fallbackBook

/-! ### Aggregation (`actualizar_grafica`) -/

/-- Bin width: `step = 10`. -/
def step : ℚ := 10

/-- Half-window: `rango_usd = 4000`. -/
def rango_usd : ℚ := 4000

/-- Floor-division binning `(price // step * step).astype(int)`:
the result is the integer multiple of `step` at or below `price`. -/
def binPrice (p : ℚ) : ℚ := ((Rat.floor (p / step) : ℤ) : ℚ) * step

/-- Prices of the bid rows (`ob[ob.side == bid].price`). -/
def bidPrices (rows : List Row) : List ℚ :=
  (rows.filter fun r => decide (r.side = Side.bid)).map Row.price

/-- Prices of the ask rows (`ob[ob.side == ask].price`). -/
def askPrices (rows : List Row) : List ℚ :=
  (rows.filter fun r => decide (r.side = Side.ask)).map Row.price

/-- Pandas `.max()` with NaN-skipping: `none` on an empty list models the
NaN that `pd.isna` then detects. -/
def listMax : List ℚ → Option ℚ
  | [] => none
  | x :: xs =>
    match listMax xs with
    | none => some x
    | some m => some (max x m)

/-- Pandas `.min()` with NaN-skipping, as `listMax`. -/
def listMin : List ℚ → Option ℚ
  | [] => none
  | x :: xs =>
    match listMin xs with
    | none => some x
    | some m => some (min x m)

/-- `mid_price = (best_bid + best_ask) / 2`. -/
def midOf (bb ba : ℚ) : ℚ := (bb + ba) / 2

/-- `ob["price"] = (ob["price"] // step * step).astype(int)`:
rebin every row in place, keeping quantity and side. -/
def binRows (rows : List Row) : List Row :=
  rows.map fun r => ⟨binPrice r.price, r.quantity, r.side⟩

/-- `ob = ob[(ob.price >= mid - rango_usd) & (ob.price <= mid + rango_usd)]`. -/
def windowRows (mid : ℚ) (rows : List Row) : List Row :=
  rows.filter fun r => decide (mid - rango_usd ≤ r.price ∧ r.price ≤ mid + rango_usd)

/-- The binned-then-windowed journal used by the pivot. -/
def obWindowed (mid : ℚ) (rows : List Row) : List Row :=
  windowRows mid (binRows rows)

/-- `y_vals = sorted(ob["price"].unique(), reverse=True)`:
distinct in-window binned prices in descending order. -/
def yVals (ob : List Row) : List ℚ :=
  ((ob.map Row.price).dedup).insertionSort fun a b => b ≤ a

/-- `pivot_table(..., aggfunc="sum", fill_value=0)` cell: the summed
quantity of the rows at side `s` and binned price `p` (0 when absent). -/
def sumQty (ob : List Row) (s : Side) (p : ℚ) : ℚ :=
  ((ob.filter fun r => decide (r.side = s ∧ r.price = p)).map Row.quantity).sum

/-- The pivot's column axis: `pivot_table` emits one column per distinct
`side` value present in `ob`, sorted (pandas sorts the labels, and the
string `ask` precedes `bid`). -/
def pivotCols (ob : List Row) : List Side :=
  (if ob.any (fun r => decide (r.side = Side.ask)) then [Side.ask] else []) ++
  (if ob.any (fun r => decide (r.side = Side.bid)) then [Side.bid] else [])

/-- One grid row per `y_vals` entry: `(binned price, bid sum, ask sum)`,
pre-log (`z_values`). -/
def tableOf (ob : List Row) (ys : List ℚ) : List (ℚ × ℚ × ℚ) :=
  ys.map fun p => (p, sumQty ob .bid p, sumQty ob .ask p)

/-- `occupied_levels / total_levels * 100` where `occupied_levels` counts
the grid rows whose quantities sum to a nonzero value across the present
sides (`np.count_nonzero(z_values.sum(axis=1))`). -/
def occupancyOf (table : List (ℚ × ℚ × ℚ)) (total : ℕ) : ℚ :=
  (((table.filter fun t => decide (t.2.1 + t.2.2 ≠ 0)).length : ℕ) : ℚ)
    / ((total : ℕ) : ℚ) * 100

/-- The renderable grid: summary scalars, descending price axis, pivot
column labels, pre-log summed-quantity matrix, occupancy percentage. -/
structure Grid where
  bestBid : ℚ
  bestAsk : ℚ
  mid : ℚ
  prices : List ℚ
  cols : List Side
  table : List (ℚ × ℚ × ℚ)
  occupancy : ℚ
deriving DecidableEq, Repr

/-- The grid built in the main branch of `actualizar_grafica`. -/
def gridOf (bb ba : ℚ) (rows : List Row) : Grid :=
  { bestBid := bb
    bestAsk := ba
    mid := midOf bb ba
    prices := yVals (obWindowed (midOf bb ba) rows)
    cols := pivotCols (obWindowed (midOf bb ba) rows)
    table := tableOf (obWindowed (midOf bb ba) rows) (yVals (obWindowed (midOf bb ba) rows))
    occupancy := occupancyOf
      (tableOf (obWindowed (midOf bb ba) rows) (yVals (obWindowed (midOf bb ba) rows)))
      (yVals (obWindowed (midOf bb ba) rows)).length }

/-- Outcome of one refresh of `actualizar_grafica`. -/
inductive AggResult where
  /-- `ob.empty`: the "Cargando datos del order book..." warning. -/
  | noData : AggResult
  /-- `pd.isna(best_bid) or pd.isna(best_ask)`: the
  "No hay datos válidos aún..." warning. -/
  | noValidLevels : AggResult
  /-- Empty window: `total_levels = 0`, so
  `occupied_levels / total_levels` raises `ZeroDivisionError`. -/
  | zeroDivisionError : AggResult
  /-- The rendered heatmap. -/
  | grid : Grid → AggResult
deriving DecidableEq, Repr

/-- `actualizar_grafica` on a journal snapshot. -/
def actualizar_grafica (rows : List Row) : AggResult :=
  if rows.isEmpty then .noData
  else
    match listMax (bidPrices rows), listMin (askPrices rows) with
    | some bb, some ba =>
      if (yVals (obWindowed (midOf bb ba) rows)).isEmpty then .zeroDivisionError
      else .grid (gridOf bb ba rows)
    | _, _ => .noValidLevels

/-! ### Concrete inputs used by individual claims -/

/-- A book whose bid at 20009 bins to 20000, just below the window floor
20004.5, while the ask at 28000 stays inside: only the ask side survives
the window. -/
def c3rows : List Row := [⟨20009, 5, .bid⟩, ⟨28000, 7, .ask⟩]

/-- The grid `actualizar_grafica` produces for `c3rows`: a single `ask`
column. -/
def c3grid : Grid :=
  ⟨20009, 28000, 48009 / 2, [28000], [.ask], [(28000, 0, 7)], 100⟩

/-- A book with a negative resting quantity: the ask sum −5 cancels the bid
sum 5 at price 100. -/
def c8rows : List Row := [⟨100, 5, .bid⟩, ⟨100, -5, .ask⟩]

/-- The grid `actualizar_grafica` produces for `c8rows`: the only level has
nonzero per-side sums but zero cross-side total, so occupancy is 0. -/
def c8grid : Grid :=
  ⟨100, 100, 100, [100], [.ask, .bid], [(100, 5, -5)], 0⟩

/-! ### Helper lemmas -/

section Lemmas

attribute [local semireducible] Rat.add Rat.mul Rat.inv Rat.sub Rat.ofScientific

/-- A single unparsable element poisons the whole `parseList`. -/
theorem parseList_eq_none {α β : Type} (f : α → Option β) {l : List α} {x : α}
    (hx : x ∈ l) (hfx : f x = none) : parseList f l = none := by
  induction l with
  | nil => cases hx
  | cons y ys ih =>
    rcases List.mem_cons.mp hx with h | h
    · subst h
      cases hr : parseList f ys <;> simp [parseList, hfx, hr]
    · cases hfy : f y <;> simp [parseList, hfy, ih h]

/-- A successful `parseList` preserves length. -/
theorem parseList_length {α β : Type} (f : α → Option β) :
    ∀ {l : List α} {ys : List β}, parseList f l = some ys → ys.length = l.length := by
  intro l
  induction l with
  | nil =>
    intro ys h
    simp only [parseList, Option.some.injEq] at h
    subst h; rfl
  | cons x xs ih =>
    intro ys h
    cases hfx : f x <;> cases hr : parseList f xs <;>
      simp [parseList, hfx, hr] at h
    subst h
    simp [ih hr]

/-- A malformed numeric string anywhere in the message makes `normalize` fail. -/
theorem normalize_eq_none {m : DeltaMsg}
    (h : (∃ pr ∈ m.b, parseFloat pr.1 = none ∨ parseFloat pr.2 = none) ∨
         (∃ pr ∈ m.a, parseFloat pr.1 = none ∨ parseFloat pr.2 = none)) :
    normalize m = none := by
  have hpair : ∀ (s : Side) (pr : String × String),
      parseFloat pr.1 = none ∨ parseFloat pr.2 = none → parsePair s pr = none := by
    intro s pr hor
    rcases hor with h1 | h2
    · cases h2 : parseFloat pr.2 <;> simp [parsePair, h1, h2]
    · cases h1 : parseFloat pr.1 <;> simp [parsePair, h1, h2]
  rcases h with ⟨pr, hmem, hor⟩ | ⟨pr, hmem, hor⟩
  · have hb := parseList_eq_none (parsePair .bid) hmem (hpair _ _ hor)
    cases ha : parseList (parsePair .ask) m.a <;> simp [normalize, hb, ha]
  · have ha := parseList_eq_none (parsePair .ask) hmem (hpair _ _ hor)
    cases hb : parseList (parsePair .bid) m.b <;> simp [normalize, hb, ha]

/-- A successfully normalized message yields exactly one row per update pair. -/
theorem normalize_length {m : DeltaMsg} {rows : List Row}
    (h : normalize m = some rows) : rows.length = m.b.length + m.a.length := by
  cases hb : parseList (parsePair .bid) m.b <;>
    cases ha : parseList (parsePair .ask) m.a <;>
      simp [normalize, hb, ha] at h
  subst h
  simp [parseList_length _ hb, parseList_length _ ha]

/-- Row-count effect of one message on the journal. -/
theorem on_message_length (s : List Row) (m : DeltaMsg) :
    (on_message s m).length =
      s.length + (if (normalize m).isSome then m.b.length + m.a.length else 0) := by
  cases hn : normalize m with
  | none => simp [on_message, hn]
  | some rows => simp [on_message, hn, normalize_length hn]

/-- `y_vals` carries exactly the prices of the pivoted rows. -/
theorem mem_yVals {ob : List Row} {p : ℚ} : p ∈ yVals ob ↔ p ∈ ob.map Row.price := by
  unfold yVals
  rw [List.mem_insertionSort, List.mem_dedup]

/-- `unique()` deduplicates, so `y_vals` has no repeats. -/
theorem nodup_yVals (ob : List Row) : (yVals ob).Nodup :=
  (List.perm_insertionSort _ _).nodup_iff.mpr (List.nodup_dedup _)

/-- Sorting does not change the number of distinct prices. -/
theorem length_yVals (ob : List Row) : (yVals ob).length = (ob.map Row.price).dedup.length :=
  (List.perm_insertionSort _ _).length_eq

/-- A price survives the window filter iff it was a binned price and lies
inside `[mid - rango_usd, mid + rango_usd]`. -/
theorem mem_map_price_windowRows {mid p : ℚ} {l : List Row} :
    p ∈ (windowRows mid l).map Row.price ↔
      p ∈ l.map Row.price ∧ mid - rango_usd ≤ p ∧ p ≤ mid + rango_usd := by
  unfold windowRows
  constructor
  · intro hp
    rcases List.mem_map.mp hp with ⟨r, hr, rfl⟩
    rcases List.mem_filter.mp hr with ⟨hrl, hcond⟩
    exact ⟨List.mem_map.mpr ⟨r, hrl, rfl⟩, of_decide_eq_true hcond⟩
  · rintro ⟨hp, h1, h2⟩
    rcases List.mem_map.mp hp with ⟨r, hr, rfl⟩
    exact List.mem_map.mpr ⟨r, List.mem_filter.mpr ⟨hr, decide_eq_true ⟨h1, h2⟩⟩, rfl⟩

/-- Every windowed row keeps the quantity of some raw input row. -/
theorem quantity_of_mem_obWindowed {mid : ℚ} {rows : List Row} {r : Row}
    (h : r ∈ obWindowed mid rows) : ∃ r0 ∈ rows, r.quantity = r0.quantity := by
  have hb : r ∈ binRows rows := List.mem_of_mem_filter h
  rcases List.mem_map.mp hb with ⟨r0, hr0, rfl⟩
  exact ⟨r0, hr0, rfl⟩

/-- A pivot cell over nonnegative quantities is nonnegative. -/
theorem sumQty_nonneg {ob : List Row} (h : ∀ r ∈ ob, 0 ≤ r.quantity) (s : Side) (p : ℚ) :
    0 ≤ sumQty ob s p := by
  refine List.sum_nonneg ?_
  intro x hx
  rcases List.mem_map.mp hx with ⟨r, hr, rfl⟩
  exact h r (List.mem_of_mem_filter hr)

/-- A `(side, price)` combination with no matching row pivots to the
`fill_value` 0. -/
theorem sumQty_eq_zero {ob : List Row} {s : Side} {p : ℚ}
    (h : ∀ r ∈ ob, ¬(r.side = s ∧ r.price = p)) : sumQty ob s p = 0 := by
  unfold sumQty
  rw [List.filter_eq_nil_iff.mpr ?_]
  · rfl
  · intro r hr
    simpa using h r hr

/-- The pivot emits an `ask` column iff some pivoted row is an ask. -/
theorem ask_mem_pivotCols {ob : List Row} :
    Side.ask ∈ pivotCols ob ↔ ∃ r ∈ ob, r.side = Side.ask := by
  unfold pivotCols
  by_cases h1 : ob.any (fun r => decide (r.side = Side.ask)) <;>
    by_cases h2 : ob.any (fun r => decide (r.side = Side.bid)) <;>
      simp_all [List.any_eq_true]

/-- The pivot emits a `bid` column iff some pivoted row is a bid. -/
theorem bid_mem_pivotCols {ob : List Row} :
    Side.bid ∈ pivotCols ob ↔ ∃ r ∈ ob, r.side = Side.bid := by
  unfold pivotCols
  by_cases h1 : ob.any (fun r => decide (r.side = Side.ask)) <;>
    by_cases h2 : ob.any (fun r => decide (r.side = Side.bid)) <;>
      simp_all [List.any_eq_true]

/-- Inversion: a produced grid pins down best bid, best ask, a non-empty
window, and the grid contents. -/
theorem grid_inv {rows : List Row} {g : Grid}
    (h : actualizar_grafica rows = .grid g) :
    ∃ bb ba, listMax (bidPrices rows) = some bb ∧ listMin (askPrices rows) = some ba ∧
      (yVals (obWindowed (midOf bb ba) rows)).isEmpty = false ∧ g = gridOf bb ba rows := by
  by_cases he : rows.isEmpty
  · simp [actualizar_grafica, he] at h
  · cases hmax : listMax (bidPrices rows) with
    | none => simp [actualizar_grafica, he, hmax] at h
    | some bb =>
      cases hmin : listMin (askPrices rows) with
      | none => simp [actualizar_grafica, he, hmax, hmin] at h
      | some ba =>
        by_cases hys : (yVals (obWindowed (midOf bb ba) rows)).isEmpty
        · simp [actualizar_grafica, he, hmax, hmin, hys] at h
        · refine ⟨bb, ba, rfl, rfl, by simpa using hys, ?_⟩
          simp [actualizar_grafica, he, hmax, hmin, hys] at h
          exact h.symm

/-- `occupied / total * 100` is nonnegative. -/
theorem occupancyOf_nonneg (table : List (ℚ × ℚ × ℚ)) (total : ℕ) :
    0 ≤ occupancyOf table total := by
  unfold occupancyOf
  positivity

/-- `occupied / total * 100` is at most 100 whenever `occupied ≤ total`. -/
theorem occupancyOf_le_100 {table : List (ℚ × ℚ × ℚ)} {total : ℕ}
    (h : (table.filter fun t => decide (t.2.1 + t.2.2 ≠ 0)).length ≤ total) :
    occupancyOf table total ≤ 100 := by
  unfold occupancyOf
  cases total with
  | zero =>
    have h0 : (table.filter fun t => decide (t.2.1 + t.2.2 ≠ 0)).length = 0 :=
      Nat.le_zero.mp h
    rw [h0]
    norm_num
  | succ n =>
    have hb : (0 : ℚ) < ((n + 1 : ℕ) : ℚ) := by positivity
    calc ((table.filter fun t => decide (t.2.1 + t.2.2 ≠ 0)).length : ℚ)
          / ((n + 1 : ℕ) : ℚ) * 100
        ≤ 1 * 100 := by
          refine mul_le_mul_of_nonneg_right ?_ (by norm_num)
          exact (div_le_one hb).mpr (by exact_mod_cast h)
      _ = 100 := by norm_num

end Lemmas

/-! ### Claim theorems -/

section Claims

attribute [local semireducible] Rat.add Rat.mul Rat.inv Rat.sub Rat.ofScientific

/-- C1: For the input rows {bid 100:5, bid 90:3, ask 110:4, ask 120:2} with
step=10 and window W=4000, the aggregation computes bestBid=100,
bestAsk=110, mid=105; binning leaves every price unchanged; all rows fall
inside the window; the grid's row axis is the descending sequence
[120,110,100,90]; the pre-log summed-quantity matrix with columns
[Bid,Ask] is [[0,2],[0,4],[5,0],[3,0]]; and occupancy equals 100. -/
theorem claim_C1_scenario :
    actualizar_grafica [⟨100, 5, .bid⟩, ⟨90, 3, .bid⟩, ⟨110, 4, .ask⟩, ⟨120, 2, .ask⟩] =
      .grid ⟨100, 110, 105, [120, 110, 100, 90], [.ask, .bid],
        [(120, 0, 2), (110, 0, 4), (100, 5, 0), (90, 3, 0)], 100⟩ ∧
    (∀ r ∈ ([⟨100, 5, .bid⟩, ⟨90, 3, .bid⟩, ⟨110, 4, .ask⟩, ⟨120, 2, .ask⟩] : List Row),
      binPrice r.price = r.price) ∧
    (∀ r ∈ binRows [⟨100, 5, .bid⟩, ⟨90, 3, .bid⟩, ⟨110, 4, .ask⟩, ⟨120, 2, .ask⟩],
      (105 : ℚ) - rango_usd ≤ r.price ∧ r.price ≤ 105 + rango_usd) := by
  refine ⟨by decide, by decide, by decide⟩

/-- C2: the claim says a window with zero surviving rows yields a valid
"empty window" result without raising.  The code instead computes
`occupied_levels / total_levels` with `total_levels = 0` and raises
`ZeroDivisionError`: with bid 10000 and ask 18010 both best levels are
defined (mid 14005) but both binned prices fall outside
[10005, 18005]. -/
theorem claim_C2_empty_window_raises :
    actualizar_grafica [⟨10000, 1, .bid⟩, ⟨18010, 1, .ask⟩] = .zeroDivisionError ∧
    listMax (bidPrices [⟨10000, 1, .bid⟩, ⟨18010, 1, .ask⟩]) = some 10000 ∧
    listMin (askPrices [⟨10000, 1, .bid⟩, ⟨18010, 1, .ask⟩]) = some 18010 := by
  refine ⟨by decide, by decide, by decide⟩

/-- C4: a delta message with a malformed numeric string in its bid or ask
update list leaves the store's row count unchanged (no partial append of
the message's earlier well-formed pairs), and the ingestion loop continues
with the next message. -/
theorem claim_C4_malformed_delta (s : List Row) (m : DeltaMsg) (ms : List DeltaMsg)
    (h : (∃ pr ∈ m.b, parseFloat pr.1 = none ∨ parseFloat pr.2 = none) ∨
         (∃ pr ∈ m.a, parseFloat pr.1 = none ∨ parseFloat pr.2 = none)) :
    on_message s m = s ∧ (on_message s m).length = s.length ∧
    processAll s (m :: ms) = processAll s ms := by
  have hn := normalize_eq_none h
  have h1 : on_message s m = s := by simp [on_message, hn]
  refine ⟨h1, by rw [h1], ?_⟩
  show processAll (on_message s m) ms = processAll s ms
  rw [h1]

theorem claim_C4_witness :
    on_message fallbackBook ⟨[("100", "abc")], []⟩ = fallbackBook ∧
    (on_message fallbackBook ⟨[("100", "abc")], []⟩).length = fallbackBook.length ∧
    processAll fallbackBook [⟨[("100", "abc")], []⟩] = processAll fallbackBook [] :=
  claim_C4_malformed_delta fallbackBook ⟨[("100", "abc")], []⟩ []
    (Or.inl ⟨("100", "abc"), by decide, Or.inr (by decide)⟩)

/-- C5: after processing any sequence of delta messages, the journal's row
count equals the initial row count plus, over all successfully-parsed
messages, the number of bid-update and ask-update pairs of each message. -/
theorem claim_C5_journal_growth (s : List Row) (ms : List DeltaMsg) :
    (processAll s ms).length =
      s.length + (ms.map fun m =>
        if (normalize m).isSome then m.b.length + m.a.length else 0).sum := by
  induction ms generalizing s with
  | nil => simp [processAll]
  | cons m rest ih =>
    have h1 : processAll s (m :: rest) = processAll (on_message s m) rest := rfl
    rw [h1, ih, on_message_length]
    simp [Nat.add_assoc]

/-- C7: the empty journal yields the "no data" state; a non-empty journal
in which one side has no rows (so its best price is undefined) yields the
distinct "no valid levels" state; neither raises nor produces a grid. -/
theorem claim_C7_no_data_no_valid_levels :
    actualizar_grafica [] = AggResult.noData ∧
    ∀ rows : List Row, rows ≠ [] →
      ((∀ r ∈ rows, r.side ≠ Side.ask) ∨ (∀ r ∈ rows, r.side ≠ Side.bid)) →
      actualizar_grafica rows = AggResult.noValidLevels := by
  refine ⟨rfl, ?_⟩
  intro rows hne h
  have hemp : rows.isEmpty = false := by
    cases rows with
    | nil => exact absurd rfl hne
    | cons a l => rfl
  rcases h with h | h
  · have hask : askPrices rows = [] := by
      unfold askPrices
      rw [List.filter_eq_nil_iff.mpr fun r hr => by simpa using h r hr]
      rfl
    have hmin : listMin (askPrices rows) = none := by rw [hask]; rfl
    cases hmax : listMax (bidPrices rows) <;>
      simp [actualizar_grafica, hemp, hmax, hmin]
  · have hbid : bidPrices rows = [] := by
      unfold bidPrices
      rw [List.filter_eq_nil_iff.mpr fun r hr => by simpa using h r hr]
      rfl
    have hmax : listMax (bidPrices rows) = none := by rw [hbid]; rfl
    cases hmin : listMin (askPrices rows) <;>
      simp [actualizar_grafica, hemp, hmax, hmin]

theorem claim_C7_witness :
    actualizar_grafica [⟨100, 5, Side.bid⟩] = AggResult.noValidLevels :=
  claim_C7_no_data_no_valid_levels.2 [⟨100, 5, Side.bid⟩] (by decide)
    (Or.inl (by decide))

/-- C9: when the snapshot fetch fails or the response lacks a `bids` or an
`asks` key, the loader answers the synthetic placeholder book: 8 rows, 4
per side, prices between 28000 and 28300, never empty. -/
theorem claim_C9_snapshot_fallback (inp : Option SnapshotResp)
    (h : inp = none ∨ ∃ resp, inp = some resp ∧ (resp.bids = none ∨ resp.asks = none)) :
    cargar_snapshot inp = fallbackBook ∧
    fallbackBook.length = 8 ∧
    (fallbackBook.filter fun r => decide (r.side = Side.bid)).length = 4 ∧
    (fallbackBook.filter fun r => decide (r.side = Side.ask)).length = 4 ∧
    (∀ r ∈ fallbackBook, 28000 ≤ r.price ∧ r.price ≤ 28300) ∧
    fallbackBook ≠ [] := by
  refine ⟨?_, by decide, by decide, by decide, by decide, by decide⟩
  rcases h with rfl | ⟨resp, rfl, hk⟩
  · rfl
  · rcases resp with ⟨bo, ao⟩
    rcases hk with hb | ha
    · cases bo with
      | none => cases ao <;> rfl
      | some l => simp at hb
    · cases ao with
      | none => cases bo <;> rfl
      | some l => simp at ha

theorem claim_C9_witness :
    cargar_snapshot none = fallbackBook ∧
    fallbackBook.length = 8 ∧
    (fallbackBook.filter fun r => decide (r.side = Side.bid)).length = 4 ∧
    (fallbackBook.filter fun r => decide (r.side = Side.ask)).length = 4 ∧
    (∀ r ∈ fallbackBook, 28000 ≤ r.price ∧ r.price ≤ 28300) ∧
    fallbackBook ≠ [] :=
  claim_C9_snapshot_fallback none (Or.inl rfl)

/-- C10: on the fallback placeholder book both sides carry prices
28000–28300, so best bid 28300 strictly exceeds best ask 28000 (a crossed
book) with mid 28150, and the aggregation still renders a grid for it. -/
theorem claim_C10_crossed_fallback :
    actualizar_grafica fallbackBook =
      .grid ⟨28300, 28000, 28150, [28300, 28200, 28100, 28000], [.ask, .bid],
        [(28300, 5, 9), (28200, 15, 7), (28100, 20, 12), (28000, 10, 8)], 100⟩ ∧
    listMax (bidPrices fallbackBook) = some 28300 ∧
    listMin (askPrices fallbackBook) = some 28000 ∧
    (28000 : ℚ) < 28300 ∧ midOf 28300 28000 = 28150 := by
  refine ⟨by decide, by decide, by decide, by decide, by decide⟩

/-- C3 counterexample: the claim says the grid's column set is exactly
{Bid, Ask} even when all in-window rows belong to a single side.  On
`c3rows` the bid bins to 20000, below the window floor 20004.5, so only
the ask survives and the pivot has the single column `ask`. -/
theorem claim_C3_counterexample :
    actualizar_grafica c3rows = .grid c3grid ∧
    c3grid.cols = [Side.ask] ∧ Side.bid ∉ c3grid.cols := by
  refine ⟨by decide, by decide, by decide⟩

/-- C3 amended: the grid's row count equals the number of distinct binned
in-window prices; a side's column is present exactly when that side has an
in-window row (so the column set is {Bid, Ask} whenever both sides
survive); and each cell is the per-(price, side) quantity sum, which is 0
for every combination absent from the input. -/
theorem claim_C3_amended (rows : List Row) (g : Grid)
    (h : actualizar_grafica rows = .grid g) :
    g.table.length = ((obWindowed g.mid rows).map Row.price).dedup.length ∧
    (Side.ask ∈ g.cols ↔ ∃ r ∈ obWindowed g.mid rows, r.side = Side.ask) ∧
    (Side.bid ∈ g.cols ↔ ∃ r ∈ obWindowed g.mid rows, r.side = Side.bid) ∧
    (∀ t ∈ g.table,
      t.2.1 = sumQty (obWindowed g.mid rows) Side.bid t.1 ∧
      t.2.2 = sumQty (obWindowed g.mid rows) Side.ask t.1 ∧
      ((∀ r ∈ obWindowed g.mid rows, ¬(r.side = Side.bid ∧ r.price = t.1)) → t.2.1 = 0) ∧
      ((∀ r ∈ obWindowed g.mid rows, ¬(r.side = Side.ask ∧ r.price = t.1)) → t.2.2 = 0)) := by
  obtain ⟨bb, ba, hmax, hmin, hys, rfl⟩ := grid_inv h
  refine ⟨?_, ask_mem_pivotCols, bid_mem_pivotCols, ?_⟩
  · show (tableOf (obWindowed (midOf bb ba) rows) (yVals (obWindowed (midOf bb ba) rows))).length = _
    unfold tableOf
    rw [List.length_map]
    exact length_yVals _
  · intro t ht
    rcases List.mem_map.mp ht with ⟨p, hp, rfl⟩
    exact ⟨rfl, rfl, fun hnone => sumQty_eq_zero hnone, fun hnone => sumQty_eq_zero hnone⟩

theorem claim_C3_witness :
    c3grid.table.length = ((obWindowed c3grid.mid c3rows).map Row.price).dedup.length ∧
    (Side.ask ∈ c3grid.cols ↔ ∃ r ∈ obWindowed c3grid.mid c3rows, r.side = Side.ask) ∧
    (Side.bid ∈ c3grid.cols ↔ ∃ r ∈ obWindowed c3grid.mid c3rows, r.side = Side.bid) ∧
    (∀ t ∈ c3grid.table,
      t.2.1 = sumQty (obWindowed c3grid.mid c3rows) Side.bid t.1 ∧
      t.2.2 = sumQty (obWindowed c3grid.mid c3rows) Side.ask t.1 ∧
      ((∀ r ∈ obWindowed c3grid.mid c3rows, ¬(r.side = Side.bid ∧ r.price = t.1)) → t.2.1 = 0) ∧
      ((∀ r ∈ obWindowed c3grid.mid c3rows, ¬(r.side = Side.ask ∧ r.price = t.1)) → t.2.2 = 0)) :=
  claim_C3_amended c3rows c3grid (by decide)

/-- C6: every binned price on a produced grid's row axis lies within
[mid - 4000, mid + 4000], the axis has no duplicates, and every distinct
binned input price inside that window appears exactly once on it. -/
theorem claim_C6_window_axis (rows : List Row) (g : Grid)
    (h : actualizar_grafica rows = .grid g) :
    (∀ p ∈ g.prices, g.mid - rango_usd ≤ p ∧ p ≤ g.mid + rango_usd) ∧
    g.prices.Nodup ∧
    (∀ p ∈ (binRows rows).map Row.price,
      g.mid - rango_usd ≤ p → p ≤ g.mid + rango_usd → g.prices.count p = 1) := by
  obtain ⟨bb, ba, hmax, hmin, hys, rfl⟩ := grid_inv h
  refine ⟨?_, nodup_yVals _, ?_⟩
  · intro p hp
    exact (mem_map_price_windowRows.mp (mem_yVals.mp hp)).2
  · intro p hp h1 h2
    have hmem : p ∈ yVals (obWindowed (midOf bb ba) rows) :=
      mem_yVals.mpr (mem_map_price_windowRows.mpr ⟨hp, h1, h2⟩)
    exact List.count_eq_one_of_mem (nodup_yVals _) hmem

theorem claim_C6_witness :
    ([120, 110, 100, 90] : List ℚ).Nodup ∧ ([120, 110, 100, 90] : List ℚ).count 100 = 1 := by
  have h := claim_C6_window_axis
    [⟨100, 5, .bid⟩, ⟨90, 3, .bid⟩, ⟨110, 4, .ask⟩, ⟨120, 2, .ask⟩]
    ⟨100, 110, 105, [120, 110, 100, 90], [.ask, .bid],
      [(120, 0, 2), (110, 0, 4), (100, 5, 0), (90, 3, 0)], 100⟩ (by decide)
  exact ⟨h.2.1, h.2.2 100 (by decide) (by decide) (by decide)⟩

/-- C8 counterexample: the claim says occupancy is exactly 100 whenever
every in-window bin has nonzero summed quantity on at least one side.  On
`c8rows` the bin at 100 has bid sum 5 and ask sum −5 — both nonzero — but
`count_nonzero(z_values.sum(axis=1))` sees 5 + (−5) = 0, so the code
reports occupancy 0. -/
theorem claim_C8_counterexample :
    actualizar_grafica c8rows = .grid c8grid ∧
    (∀ t ∈ c8grid.table, t.2.1 ≠ 0 ∨ t.2.2 ≠ 0) ∧
    c8grid.occupancy = 0 ∧ c8grid.occupancy ≠ 100 := by
  refine ⟨by decide, by decide, by decide, by decide⟩

/-- C8 amended: occupancy always lies in [0, 100]; and when every input
quantity is nonnegative, it equals exactly 100 whenever every in-window
binned price has nonzero summed quantity on at least one side. -/
theorem claim_C8_amended (rows : List Row) (g : Grid)
    (h : actualizar_grafica rows = .grid g) :
    0 ≤ g.occupancy ∧ g.occupancy ≤ 100 ∧
    ((∀ r ∈ rows, 0 ≤ r.quantity) →
      (∀ t ∈ g.table, ¬(t.2.1 = 0 ∧ t.2.2 = 0)) → g.occupancy = 100) := by
  obtain ⟨bb, ba, hmax, hmin, hys, rfl⟩ := grid_inv h
  have hocc : (gridOf bb ba rows).occupancy =
      occupancyOf (tableOf (obWindowed (midOf bb ba) rows)
          (yVals (obWindowed (midOf bb ba) rows)))
        (yVals (obWindowed (midOf bb ba) rows)).length := rfl
  have hlen : (tableOf (obWindowed (midOf bb ba) rows)
      (yVals (obWindowed (midOf bb ba) rows))).length =
      (yVals (obWindowed (midOf bb ba) rows)).length := by
    unfold tableOf
    exact List.length_map _ _
  refine ⟨hocc ▸ occupancyOf_nonneg _ _,
    hocc ▸ occupancyOf_le_100 (le_trans (List.length_filter_le _ _) (le_of_eq hlen)), ?_⟩
  intro hq hnz
  have hqob : ∀ r ∈ obWindowed (midOf bb ba) rows, 0 ≤ r.quantity := by
    intro r hr
    rcases quantity_of_mem_obWindowed hr with ⟨r0, hr0, he⟩
    rw [he]
    exact hq r0 hr0
  have hall : ∀ t ∈ tableOf (obWindowed (midOf bb ba) rows)
      (yVals (obWindowed (midOf bb ba) rows)),
      (fun t : ℚ × ℚ × ℚ => decide (t.2.1 + t.2.2 ≠ 0)) t = true := by
    intro t ht
    have hne := hnz t ht
    rcases List.mem_map.mp ht with ⟨p, hp, rfl⟩
    have h1 : 0 ≤ sumQty (obWindowed (midOf bb ba) rows) .bid p := sumQty_nonneg hqob _ _
    have h2 : 0 ≤ sumQty (obWindowed (midOf bb ba) rows) .ask p := sumQty_nonneg hqob _ _
    refine decide_eq_true ?_
    intro hsum
    exact hne ((add_eq_zero_iff_of_nonneg h1 h2).mp hsum)
  have hfilter := List.filter_eq_self.mpr hall
  have hys2 : yVals (obWindowed (midOf bb ba) rows) ≠ [] := by
    intro he
    rw [he] at hys
    simp at hys
  have hpos : (0 : ℚ) < ((yVals (obWindowed (midOf bb ba) rows)).length : ℚ) := by
    have := List.length_pos.mpr hys2
    exact_mod_cast this
  rw [hocc]
  unfold occupancyOf
  rw [hfilter, hlen, div_self (ne_of_gt hpos), one_mul]

theorem claim_C8_witness :
    (0 : ℚ) ≤ (Grid.mk 100 110 105 [120, 110, 100, 90] [.ask, .bid]
      [(120, 0, 2), (110, 0, 4), (100, 5, 0), (90, 3, 0)] 100).occupancy ∧
    (Grid.mk 100 110 105 [120, 110, 100, 90] [.ask, .bid]
      [(120, 0, 2), (110, 0, 4), (100, 5, 0), (90, 3, 0)] 100).occupancy ≤ 100 ∧
    (Grid.mk 100 110 105 [120, 110, 100, 90] [.ask, .bid]
      [(120, 0, 2), (110, 0, 4), (100, 5, 0), (90, 3, 0)] 100).occupancy = 100 := by
  have h := claim_C8_amended
    [⟨100, 5, .bid⟩, ⟨90, 3, .bid⟩, ⟨110, 4, .ask⟩, ⟨120, 2, .ask⟩]
    ⟨100, 110, 105, [120, 110, 100, 90], [.ask, .bid],
      [(120, 0, 2), (110, 0, 4), (100, 5, 0), (90, 3, 0)], 100⟩ (by decide)
  exact ⟨h.1, h.2.1, h.2.2 (by decide) (by decide)⟩

end Claims

end OrderBook
